import Mathlib

/-!
Shallow embedding of the tenant-scoped authorization core of the
project-hub backend (Express + Prisma).  The embedded functions are
translated from:

  * backend/src/middleware/tenant.ts      (ensureTenantAccess)
  * backend/src/utils/permissions.ts      (checkProjectAccess, canWrite, canAdmin)
  * backend/src/routes/projects.ts        (list / get / create / delete project,
                                           generateProjectCode)
  * backend/src/routes/invitations.ts     (create invitation, lookup by token,
                                           accept invitation)
  * backend/src/routes/attachments.ts     (join-request routes: search by code,
                                           create, accept, decline)

The persistent store (Prisma) is modelled as explicit lists of rows; a
`findFirst` / `findUnique` becomes `List.find?`, a `create` appends a row,
an `update` maps over the list.  HTTP outcomes are an `Except` whose error
type mirrors the status codes the routes produce; a thrown
`Error('Unauthorized: Tenant mismatch')` (surfaced as 403 by the error
handler middleware) is the distinguished `tenantMismatch` constructor.
Clock values (`new Date()`, `expiresAt`) are `Nat`s.  Join codes are
modelled as lists of ASCII code points so that JavaScript's
`toUpperCase`, which the routes apply to caller-supplied codes, is plain
arithmetic; the routes only ever deal in ASCII codes (A–Z, 0–9).
Fallible external side effects (SMTP mail, notification insert) are
modelled by a boolean parameter saying whether that effect would succeed;
the embedding then reproduces exactly what the route does in either case
(catch-and-log versus propagate to the error handler).
-/

/-- Role of a project member (enum ProjectRole, permissions.ts). -/
inductive ProjectRole
  | OWNER
  | ADMIN
  | MEMBER
  | VIEWER
deriving DecidableEq, Repr

/-- Invitation status (Prisma schema: PENDING/ACCEPTED/DECLINED/EXPIRED). -/
inductive InvitationStatus
  | PENDING
  | ACCEPTED
  | DECLINED
  | EXPIRED
deriving DecidableEq, Repr

/-- Join-request status (Prisma schema: PENDING/ACCEPTED/DECLINED). -/
inductive JoinRequestStatus
  | PENDING
  | ACCEPTED
  | DECLINED
deriving DecidableEq, Repr

/-- Typed request outcome mirroring the HTTP statuses the routes return:
404, 403, 409, 410, 400, and the thrown tenant-mismatch error (which the
errorHandler middleware maps to 403 with the message
'Unauthorized: Tenant mismatch'); `serverError` is an uncaught exception
reaching the error handler (500). -/
inductive Err
  | notFound (msg : String)
  | forbidden (msg : String)
  | conflict (msg : String)
  | gone (msg : String)
  | badRequest (msg : String)
  | tenantMismatch
  | serverError
deriving DecidableEq, Repr

/-- A project row.  `code` is the human-shareable join code
(ASCII code points); `description`, `status`, `color` are carried by the
real row but never read by the authorization core, so they are omitted. -/
structure Project where
  id : String
  tenantId : String
  name : String
  code : List Nat
  createdBy : String
deriving DecidableEq, Repr

/-- A ProjectMember row: the authoritative access-control edge. -/
structure ProjectMember where
  tenantId : String
  projectId : String
  userId : String
  role : ProjectRole
deriving DecidableEq, Repr

/-- A user row.  Per the backend's own comments, `Profile.id` equals
`User.id` (one-to-one, same identifier), so the profile is not modelled
separately: `user.profile.id = user.id`. -/
structure UserRow where
  id : String
  tenantId : String
  email : String
deriving DecidableEq, Repr

/-- An invitation row. `expiresAt` is an abstract clock value. -/
structure Invitation where
  id : String
  tenantId : String
  projectId : String
  email : String
  role : ProjectRole
  status : InvitationStatus
  token : String
  invitedBy : String
  expiresAt : Nat
deriving DecidableEq, Repr

/-- A join-request row. -/
structure JoinRequest where
  id : String
  tenantId : String
  projectId : String
  userId : String
  message : Option String
  status : JoinRequestStatus
deriving DecidableEq, Repr

/-- A notification row (write-only sink for the core). -/
structure NotificationRow where
  tenantId : String
  userId : String
  ntype : String
  title : String
  message : String
  projectId : Option String
  read : Bool
deriving DecidableEq, Repr

/-- An activity-log row (append-only). -/
structure ActivityRow where
  tenantId : String
  projectId : String
  userId : String
  action : String
  entityType : String
  entityId : String
deriving DecidableEq, Repr

/-- The persistent store, plus `emailsSent` recording what the external
mail collaborator was successfully handed (it is not a table). -/
structure DB where
  projects : List Project
  members : List ProjectMember
  users : List UserRow
  invitations : List Invitation
  joinRequests : List JoinRequest
  notifications : List NotificationRow
  activity : List ActivityRow
  emailsSent : List String
deriving DecidableEq, Repr

/-- The authenticated principal placed on the request by the
authenticate middleware: `req.user = { userId, tenantId, email }`. -/
structure Principal where
  userId : String
  tenantId : String
  email : String
deriving DecidableEq, Repr

/-- Result shape of checkProjectAccess: `{ hasAccess, role? }`. -/
structure AccessResult where
  hasAccess : Bool
  role : Option ProjectRole
deriving DecidableEq, Repr

instance {ε α : Type} [DecidableEq ε] [DecidableEq α] : DecidableEq (Except ε α) :=
  fun a b =>
    match a, b with
    | .error e₁, .error e₂ =>
      if h : e₁ = e₂ then .isTrue (by rw [h]) else
        .isFalse (by intro hc; cases hc; exact h rfl)
    | .ok x, .ok y =>
      if h : x = y then .isTrue (by rw [h]) else
        .isFalse (by intro hc; cases hc; exact h rfl)
    | .error _, .ok _ => .isFalse (by intro hc; cases hc)
    | .ok _, .error _ => .isFalse (by intro hc; cases hc)

/-- tenant.ts `ensureTenantAccess`: throws on mismatch, else no-op. -/
def ensureTenantAccess (userTenantId resourceTenantId : String) : Except Err Unit :=
  if userTenantId ≠ resourceTenantId then .error .tenantMismatch else .ok ()

/-- permissions.ts `checkProjectAccess`: explicit membership row for
`(projectId, userId, tenantId)` first; otherwise load the project
(missing → no access), run the tenant guard (mismatch → thrown error),
then the creator fallback (createdBy → OWNER), else no access. -/
def checkProjectAccess (db : DB) (userId projectId tenantId : String) :
    Except Err AccessResult :=
  match db.members.find? (fun m =>
      m.projectId == projectId && m.userId == userId && m.tenantId == tenantId) with
  | some membership => .ok ⟨true, some membership.role⟩
  | none =>
    match db.projects.find? (fun p => p.id == projectId) with
    | none => .ok ⟨false, none⟩
    | some project =>
      match ensureTenantAccess tenantId project.tenantId with
      | .error e => .error e
      | .ok _ =>
        if project.createdBy == userId then .ok ⟨true, some .OWNER⟩
        else .ok ⟨false, none⟩

/-- permissions.ts `canWrite` (role may be undefined). -/
def canWrite (role : Option ProjectRole) : Bool :=
  role == some .OWNER || role == some .ADMIN || role == some .MEMBER

/-- permissions.ts `canAdmin` (role may be undefined). -/
def canAdmin (role : Option ProjectRole) : Bool :=
  role == some .OWNER || role == some .ADMIN

/-- §4.3 of the specification, transcribed step by step so that
`checkProjectAccess` can be proved to refine it: (1) explicit
ProjectMember row for `(projectId, userId, tenantId)` wins with its role;
(2) no row and no project → `hasAccess = false`; (3) tenant guard between
the caller's tenant and the project's tenant, mismatch is a hard
`TenantMismatch` error; (4) the creator fallback yields Owner;
(5) otherwise no access. -/
def resolveAccessSpec (db : DB) (userId projectId tenantId : String) :
    Except Err AccessResult :=
  match db.members.find? (fun m =>
      m.projectId == projectId && m.userId == userId && m.tenantId == tenantId) with
  | some row => .ok ⟨true, some row.role⟩
  | none =>
    match db.projects.find? (fun p => p.id == projectId) with
    | none => .ok ⟨false, none⟩
    | some project =>
      if tenantId ≠ project.tenantId then .error .tenantMismatch
      else if project.createdBy == userId then .ok ⟨true, some .OWNER⟩
      else .ok ⟨false, none⟩

/- ---------------------------------------------------------------- -/
/- projects.ts route handlers                                       -/
/- ---------------------------------------------------------------- -/

/-- GET /projects/:id.  Loads the project, 404 if absent, then grants
access iff the caller is the creator or has any membership row (the
route deliberately checks membership before any tenant comparison; a
non-member non-creator gets 403). -/
def getProject (db : DB) (p : Principal) (projectId : String) :
    Except Err Project :=
  match db.projects.find? (fun q => q.id == projectId) with
  | none => .error (.notFound "Project not found")
  | some project =>
    let isCreator := project.createdBy == p.userId
    let isMember := db.members.any (fun m =>
        m.projectId == project.id && m.userId == p.userId)
    if isCreator || isMember then .ok project
    else .error (.forbidden "You do not have access to this project")

/-- GET /projects.  Collects the ids of projects the caller is a member
of (any tenant) and of projects the caller created in their own tenant,
then returns projects in that id set that are either in the caller's
tenant or carry a membership row for the caller.  (The source dedups the
id set and orders by creation date; neither affects membership in the
result, which is what the theorems consume.) -/
def listProjects (db : DB) (p : Principal) : List Project :=
  let memberProjectIds :=
    (db.members.filter (fun m => m.userId == p.userId)).map (fun m => m.projectId)
  let createdProjectIds :=
    (db.projects.filter (fun q =>
        q.createdBy == p.userId && q.tenantId == p.tenantId)).map (fun q => q.id)
  let accessibleProjectIds := memberProjectIds ++ createdProjectIds
  if accessibleProjectIds.isEmpty then []
  else
    db.projects.filter (fun q =>
      accessibleProjectIds.contains q.id &&
      (q.tenantId == p.tenantId ||
        (memberProjectIds.contains q.id &&
          db.members.any (fun m => m.projectId == q.id && m.userId == p.userId))))

/-- Cascade delete of a project (Prisma schema: Project → members,
invitations, join requests, activity are onDelete: Cascade). -/
def cascadeDeleteProject (db : DB) (projectId : String) : DB :=
  { db with
    projects := db.projects.filter (fun q => q.id != projectId)
    members := db.members.filter (fun m => m.projectId != projectId)
    invitations := db.invitations.filter (fun i => i.projectId != projectId)
    joinRequests := db.joinRequests.filter (fun r => r.projectId != projectId)
    activity := db.activity.filter (fun a => a.projectId != projectId) }

/-- DELETE /projects/:id.  404 if absent, tenant guard, then
checkProjectAccess; the route gates deletion on `canAdmin` (its own
error message says 'Only owners and admins can delete projects'). -/
def deleteProject (db : DB) (p : Principal) (projectId : String) :
    Except Err String × DB :=
  match db.projects.find? (fun q => q.id == projectId) with
  | none => (.error (.notFound "Project not found"), db)
  | some project =>
    match ensureTenantAccess p.tenantId project.tenantId with
    | .error e => (.error e, db)
    | .ok _ =>
      match checkProjectAccess db p.userId project.id p.tenantId with
      | .error e => (.error e, db)
      | .ok r =>
        if !r.hasAccess || !canAdmin r.role then
          (.error (.forbidden "Only owners and admins can delete projects"), db)
        else
          (.ok "Project deleted successfully", cascadeDeleteProject db projectId)

/- ---------------------------------------------------------------- -/
/- generateProjectCode (projects.ts)                                -/
/- ---------------------------------------------------------------- -/

/-- ASCII code points of the pool 'ABCDEFGHIJKLMNOPQRSTUVWXYZ0123456789'. -/
def codeChars : List Nat :=
  (List.range 26).map (fun i => 65 + i) ++ (List.range 10).map (fun i => 48 + i)

/-- One `chars.charAt(Math.floor(Math.random() * chars.length))` draw,
with the random draw supplied as a natural number. -/
def pickChar (i : Nat) : Nat := codeChars.getD (i % codeChars.length) 65

/-- One iteration of the generation loop: a 6-character candidate built
from draws `rand (6*k) .. rand (6*k+5)`. -/
def genCodeAttempt (rand : Nat → Nat) (k : Nat) : List Nat :=
  (List.range 6).map (fun i => pickChar (rand (6 * k + i)))

/-- The collision-checked loop of `generateProjectCode`: keep drawing
candidates until one is not already a project's code.  The source loops
unboundedly on the (probabilistic) collision check; the embedding makes
the loop's progress explicit with fuel, `none` standing for the
unreached case of exhausting every draw. -/
def generateProjectCode (db : DB) (rand : Nat → Nat) :
    Nat → Nat → Option (List Nat)
  | 0, _ => none
  | fuel + 1, k =>
    let code := genCodeAttempt rand k
    if db.projects.any (fun q => q.code == code) then
      generateProjectCode db rand fuel (k + 1)
    else some code

/-- JavaScript `toUpperCase` on an ASCII code point. -/
def upChar (n : Nat) : Nat := if 97 ≤ n ∧ n ≤ 122 then n - 32 else n

/-- JavaScript `code.toUpperCase()` on an ASCII string. -/
def upperCode (code : List Nat) : List Nat := code.map upChar

/-- ASCII `toLowerCase` on a code point (used only to state that two
email strings differ solely in letter case). -/
def lowChar (n : Nat) : Nat := if 65 ≤ n ∧ n ≤ 90 then n + 32 else n

/-- Lower-cased code points of a string: `s.toLowerCase()` for ASCII. -/
def lowerAscii (s : String) : List Nat := s.data.map (fun c => lowChar c.toNat)

/- ---------------------------------------------------------------- -/
/- invitations.ts route handlers                                    -/
/- ---------------------------------------------------------------- -/

/-- Update an invitation row's status in place (`prisma.invitation.update`
by id). -/
def setInvitationStatus (db : DB) (invId : String) (st : InvitationStatus) : DB :=
  { db with invitations := db.invitations.map (fun i =>
      if i.id == invId then { i with status := st } else i) }

/-- POST /invitations.  Project lookup, tenant guard, admin gate,
already-a-member conflict (only checked when the email resolves to a
user of the caller's tenant), duplicate-pending conflict, then creation
with `expiresAt = now + 7 days` and a token supplied by the store.  The
email send is wrapped in try/catch at the call site (and the mailer
itself also swallows errors), so `emailOk` only decides whether the mail
collaborator records the send; the response is 201 either way. -/
def createInvitation (db : DB) (p : Principal) (projectId email : String)
    (role : Option ProjectRole) (now : Nat) (freshId freshToken : String)
    (emailOk : Bool) : Except Err Invitation × DB :=
  match db.projects.find? (fun q => q.id == projectId) with
  | none => (.error (.notFound "Project not found"), db)
  | some project =>
    match ensureTenantAccess p.tenantId project.tenantId with
    | .error e => (.error e, db)
    | .ok _ =>
      match checkProjectAccess db p.userId project.id p.tenantId with
      | .error e => (.error e, db)
      | .ok r =>
        if !r.hasAccess || !canAdmin r.role then
          (.error (.forbidden "Only owners and admins can invite members"), db)
        else
          let existingUser : Option UserRow := db.users.find? (fun u =>
              u.email == email && u.tenantId == p.tenantId)
          let alreadyMember : Bool :=
            match existingUser with
            | some u => (db.members.find? (fun m =>
                m.projectId == projectId && m.userId == u.id)).isSome
            | none => false
          if alreadyMember then
            (.error (.conflict "User is already a member of this project"), db)
          else if (db.invitations.find? (fun i =>
              i.projectId == projectId && i.email == email &&
              i.status == .PENDING)).isSome then
            (.error (.conflict "Invitation already sent"), db)
          else
            let inv : Invitation :=
              { id := freshId, tenantId := p.tenantId, projectId := projectId
                email := email, role := role.getD .MEMBER, status := .PENDING
                token := freshToken, invitedBy := p.userId
                expiresAt := now + 7 * 86400 }
            let db1 := { db with invitations := db.invitations ++ [inv] }
            let db2 :=
              if emailOk then { db1 with emailsSent := db1.emailsSent ++ [email] }
              else db1
            (.ok inv, db2)

/-- GET /invitations/:token.  Finds a PENDING invitation by token
(404 otherwise); if past `expiresAt`, lazily transitions it to EXPIRED
and answers 410 Gone; otherwise returns the invitation body. -/
def getInvitationByToken (db : DB) (token : String) (now : Nat) :
    Except Err Invitation × DB :=
  match db.invitations.find? (fun i =>
      i.token == token && i.status == .PENDING) with
  | none => (.error (.notFound "Invitation not found"), db)
  | some inv =>
    if now > inv.expiresAt then
      (.error (.gone "Invitation has expired"), setInvitationStatus db inv.id .EXPIRED)
    else (.ok inv, db)

/-- POST /invitations/:token/accept.  Pending lookup (404), lazy expiry
(410), then the email check — the source compares `user?.email !==
invitation.email` with strict (case-sensitive) string equality, and a
missing user record compares unequal — then the tenant guard, the
already-a-member branch (which still marks the invitation ACCEPTED and
answers 409), and finally membership creation at the invitation's role,
status transition, and an activity log entry. -/
def acceptInvitation (db : DB) (p : Principal) (token : String) (now : Nat) :
    Except Err String × DB :=
  match db.invitations.find? (fun i =>
      i.token == token && i.status == .PENDING) with
  | none => (.error (.notFound "Invitation not found"), db)
  | some inv =>
    if now > inv.expiresAt then
      (.error (.gone "Invitation has expired"), setInvitationStatus db inv.id .EXPIRED)
    else
      match db.users.find? (fun u => u.id == p.userId) with
      | none => (.error (.forbidden "Invitation email does not match your account"), db)
      | some user =>
        if user.email ≠ inv.email then
          (.error (.forbidden "Invitation email does not match your account"), db)
        else
          match ensureTenantAccess p.tenantId inv.tenantId with
          | .error e => (.error e, db)
          | .ok _ =>
            if (db.members.find? (fun m =>
                m.projectId == inv.projectId && m.userId == user.id)).isSome then
              (.error (.conflict "Already a member of this project"),
               setInvitationStatus db inv.id .ACCEPTED)
            else
              let newMember : ProjectMember :=
                { tenantId := inv.tenantId, projectId := inv.projectId
                  userId := user.id, role := inv.role }
              let db1 := { db with members := db.members ++ [newMember] }
              let db2 := setInvitationStatus db1 inv.id .ACCEPTED
              let db3 := { db2 with activity := db2.activity ++
                [{ tenantId := inv.tenantId, projectId := inv.projectId
                   userId := p.userId, action := "joined"
                   entityType := "project", entityId := inv.projectId }] }
              (.ok "Invitation accepted successfully", db3)

/- ---------------------------------------------------------------- -/
/- attachments.ts join-request route handlers                       -/
/- ---------------------------------------------------------------- -/

/-- Result of GET /join-requests/search/:code: the project summary plus
the two caller-specific booleans. -/
structure SearchResult where
  project : Project
  isMember : Bool
  hasPendingRequest : Bool
deriving DecidableEq, Repr

/-- GET /join-requests/search/:code.  Uppercases the caller-supplied
code, finds the project by it (404 otherwise) and returns its summary —
to any authenticated caller, in any tenant — with `isMember` and
`hasPendingRequest` computed for the caller. -/
def searchProjectByCode (db : DB) (p : Principal) (code : List Nat) :
    Except Err SearchResult :=
  match db.projects.find? (fun q => q.code == upperCode code) with
  | none => .error (.notFound "Project not found")
  | some project =>
    let isMember := db.members.any (fun m =>
        m.projectId == project.id && m.userId == p.userId)
    let hasPending := (db.joinRequests.find? (fun r =>
        r.projectId == project.id && r.userId == p.userId &&
        r.status == .PENDING)).isSome
    .ok ⟨project, isMember, hasPending⟩

/-- Update a join-request row's status in place. -/
def setJoinRequestStatus (db : DB) (reqId : String) (st : JoinRequestStatus) : DB :=
  { db with joinRequests := db.joinRequests.map (fun r =>
      if r.id == reqId then { r with status := st } else r) }

/-- POST /join-requests.  Uppercased code lookup (404), empty-code guard
(400), the same-tenant guard (403 — cross-tenant join is explicitly
disallowed), already-a-member (400), duplicate pending request (400);
then the request row is created and the project owner (OWNER-role
member, else the creator) is notified, with the notification insert
wrapped in try/catch so its failure leaves the 201 response intact. -/
def createJoinRequest (db : DB) (p : Principal) (projectCode : List Nat)
    (message : Option String) (freshId : String) (notifOk : Bool) :
    Except Err JoinRequest × DB :=
  match db.projects.find? (fun q => q.code == upperCode projectCode) with
  | none => (.error (.notFound "Project not found with this code"), db)
  | some project =>
    if project.code.isEmpty then
      (.error (.badRequest "This project does not have a code assigned. Please contact the project owner."), db)
    else if project.tenantId ≠ p.tenantId then
      (.error (.forbidden "You can only join projects within your organization"), db)
    else if db.members.any (fun m =>
        m.projectId == project.id && m.userId == p.userId) then
      (.error (.badRequest "You are already a member of this project"), db)
    else if (db.joinRequests.find? (fun r =>
        r.projectId == project.id && r.userId == p.userId &&
        r.status == .PENDING)).isSome then
      (.error (.badRequest "You already have a pending request for this project"), db)
    else
      let jr : JoinRequest :=
        { id := freshId, tenantId := p.tenantId, projectId := project.id
          userId := p.userId, message := message, status := .PENDING }
      let db1 := { db with joinRequests := db.joinRequests ++ [jr] }
      let ownerId : String :=
        match db.members.find? (fun m =>
            m.projectId == project.id && m.role == .OWNER) with
        | some ownerMember => ownerMember.userId
        | none => project.createdBy
      let db2 :=
        if notifOk then
          { db1 with notifications := db1.notifications ++
            [{ tenantId := p.tenantId, userId := ownerId, ntype := "JOIN_REQUEST"
               title := "New Join Request"
               message := p.email ++ " wants to join project " ++ project.name
               projectId := some project.id, read := false }] }
        else db1
      (.ok jr, db2)

/-- POST /join-requests/:requestId/accept.  Request lookup by id with no
status filter (404 if absent), an OWNER/ADMIN membership gate for the
caller (403), the requester-already-a-member guard (400, nothing else
happens); otherwise the request's status is set to ACCEPTED, a MEMBER
row is created with the request's tenant, and a notification is written
to the requester — with no try/catch, so a failing notification insert
propagates to the error handler (500) after the transition and the
membership have already been persisted. -/
def acceptJoinRequest (db : DB) (p : Principal) (requestId : String)
    (notifOk : Bool) : Except Err String × DB :=
  match db.joinRequests.find? (fun r => r.id == requestId) with
  | none => (.error (.notFound "Join request not found"), db)
  | some jr =>
    match db.members.find? (fun m =>
        m.projectId == jr.projectId && m.userId == p.userId &&
        (m.role == .OWNER || m.role == .ADMIN)) with
    | none => (.error (.forbidden "You do not have permission to accept join requests"), db)
    | some _ =>
      if db.members.any (fun m =>
          m.projectId == jr.projectId && m.userId == jr.userId) then
        (.error (.badRequest "User is already a member"), db)
      else
        let db1 := setJoinRequestStatus db requestId .ACCEPTED
        let db2 := { db1 with members := db1.members ++
          [{ tenantId := jr.tenantId, projectId := jr.projectId
             userId := jr.userId, role := .MEMBER }] }
        if notifOk then
          (.ok "Join request accepted",
           { db2 with notifications := db2.notifications ++
             [{ tenantId := jr.tenantId, userId := jr.userId
                ntype := "PROJECT_UPDATE", title := "Join Request Accepted"
                message := "Your request to join has been accepted"
                projectId := some jr.projectId, read := false }] })
        else (.error .serverError, db2)

/-- POST /join-requests/:requestId/decline.  Request lookup by id with
no status filter (404), OWNER/ADMIN gate (403), then the status is set
to DECLINED and the requester is notified — again with no try/catch
around the notification insert. -/
def declineJoinRequest (db : DB) (p : Principal) (requestId : String)
    (notifOk : Bool) : Except Err String × DB :=
  match db.joinRequests.find? (fun r => r.id == requestId) with
  | none => (.error (.notFound "Join request not found"), db)
  | some jr =>
    match db.members.find? (fun m =>
        m.projectId == jr.projectId && m.userId == p.userId &&
        (m.role == .OWNER || m.role == .ADMIN)) with
    | none => (.error (.forbidden "You do not have permission to decline join requests"), db)
    | some _ =>
      let db1 := setJoinRequestStatus db requestId .DECLINED
      if notifOk then
        (.ok "Join request declined",
         { db1 with notifications := db1.notifications ++
           [{ tenantId := jr.tenantId, userId := jr.userId
              ntype := "PROJECT_UPDATE", title := "Join Request Declined"
              message := "Your request to join has been declined"
              projectId := some jr.projectId, read := false }] })
      else (.error .serverError, db1)

/-- Whether an outcome is the TenantMismatch or NotFound failure kind
(the only kinds claim C1 allows a cross-tenant attempt to produce). -/
def isTenantMismatchOrNotFound : Err → Bool
  | .tenantMismatch => true
  | .notFound _ => true
  | _ => false

/- ---------------------------------------------------------------- -/
/- Helper lemmas                                                    -/
/- ---------------------------------------------------------------- -/

/-- Uppercasing an ASCII code point is idempotent. -/
theorem upChar_idem (n : Nat) : upChar (upChar n) = upChar n := by
  simp only [upChar]; split <;> (try split) <;> omega

/-- Uppercasing an ASCII string is idempotent. -/
theorem upperCode_idem (c : List Nat) : upperCode (upperCode c) = upperCode c := by
  unfold upperCode
  induction c with
  | nil => rfl
  | cons a t ih => simp only [List.map_cons, upChar_idem, ih]

/-- Every character the generator can draw is a fixed point of
uppercasing (the pool is A–Z and 0–9). -/
theorem upChar_pickChar (i : Nat) : upChar (pickChar i) = pickChar i := by
  have hall : ∀ x ∈ codeChars, upChar x = x := by decide
  unfold pickChar
  rw [show codeChars.getD (i % codeChars.length) 65 =
      (codeChars.get? (i % codeChars.length)).getD 65 from rfl]
  cases h : codeChars.get? (i % codeChars.length) with
  | none => decide
  | some x => exact hall x (List.get?_mem h)

/-- One generation attempt is already fully upper-case. -/
theorem upperCode_genCodeAttempt (rand : Nat → Nat) (k : Nat) :
    upperCode (genCodeAttempt rand k) = genCodeAttempt rand k := by
  unfold upperCode genCodeAttempt
  rw [List.map_map]
  exact List.map_congr_left (fun i _ => upChar_pickChar (rand (6 * k + i)))

/-- Updating a join-request row's status leaves it findable by id, with
the new status. -/
theorem find?_setJoinRequestStatus (db : DB) (rid : String)
    (st : JoinRequestStatus) (jr : JoinRequest)
    (h : db.joinRequests.find? (fun r => r.id == rid) = some jr) :
    (setJoinRequestStatus db rid st).joinRequests.find? (fun r => r.id == rid) =
      some { jr with status := st } := by
  unfold setJoinRequestStatus
  rw [List.find?_map]
  have hg : ((fun r : JoinRequest => r.id == rid) ∘
      (fun r : JoinRequest => if r.id == rid then { r with status := st } else r)) =
      (fun r : JoinRequest => r.id == rid) := by
    funext r
    show ((if (r.id == rid) = true then { r with status := st } else r).id == rid)
        = (r.id == rid)
    by_cases hc : (r.id == rid) = true
    · rw [if_pos hc]
    · rw [if_neg hc]
  rw [hg, h]
  have hid : (jr.id == rid) = true := by
    have hp := List.find?_some h
    exact hp
  have hid' : jr.id = rid := by simpa using hid
  simp [hid']

/- ---------------------------------------------------------------- -/
/- C3                                                               -/
/- ---------------------------------------------------------------- -/

/-- C3: `checkProjectAccess` follows exactly the algorithm of §4.3 of
the specification for every `(userId, projectId, tenantId)`: an explicit
ProjectMember row, when present, determines the result with that row's
role; otherwise a missing project yields `hasAccess = false`; otherwise
a tenant mismatch between caller and project is a hard `TenantMismatch`
error (not a `hasAccess = false` result); otherwise a project whose
`createdBy` equals `userId` yields Owner access with no membership row;
otherwise `hasAccess = false`. -/
theorem checkProjectAccess_follows_resolveAccessSpec
    (db : DB) (userId projectId tenantId : String) :
    checkProjectAccess db userId projectId tenantId =
      resolveAccessSpec db userId projectId tenantId := by
  unfold checkProjectAccess resolveAccessSpec ensureTenantAccess
  cases db.members.find? (fun m =>
      m.projectId == projectId && m.userId == userId && m.tenantId == tenantId) with
  | some membership => rfl
  | none =>
    cases db.projects.find? (fun p => p.id == projectId) with
    | none => rfl
    | some project =>
      by_cases h : tenantId ≠ project.tenantId <;> simp [h]

/- ---------------------------------------------------------------- -/
/- C10                                                              -/
/- ---------------------------------------------------------------- -/

/-- C10: for every caller-supplied join code, code-based discovery and
join-request creation behave exactly as they would on the uppercased
form of the code (both uppercase before the lookup), and every code the
generator can produce consists only of A–Z and 0–9 and is therefore a
fixed point of uppercasing — so project lookup by code is
case-insensitive at the public interface. -/
theorem joinCode_lookup_caseInsensitive :
    (∀ (db : DB) (p : Principal) (c : List Nat),
      searchProjectByCode db p c = searchProjectByCode db p (upperCode c)) ∧
    (∀ (db : DB) (p : Principal) (c : List Nat) (msg : Option String)
        (fid : String) (nok : Bool),
      createJoinRequest db p c msg fid nok =
        createJoinRequest db p (upperCode c) msg fid nok) ∧
    (∀ (db : DB) (rand : Nat → Nat) (fuel k : Nat) (code : List Nat),
      generateProjectCode db rand fuel k = some code → upperCode code = code) := by
  refine ⟨?_, ?_, ?_⟩
  · intro db p c
    unfold searchProjectByCode
    rw [upperCode_idem]
  · intro db p c msg fid nok
    unfold createJoinRequest
    rw [upperCode_idem]
  · intro db rand fuel
    induction fuel with
    | zero => intro k code h; simp [generateProjectCode] at h
    | succ n ih =>
      intro k code h
      unfold generateProjectCode at h
      by_cases hc : db.projects.any
          (fun q => q.code == genCodeAttempt rand k) = true
      · rw [if_pos hc] at h
        exact ih (k + 1) code h
      · rw [if_neg hc] at h
        cases h
        exact upperCode_genCodeAttempt rand k

/-- The empty store. -/
def emptyDB : DB := ⟨[], [], [], [], [], [], [], []⟩

/-- Witness for C10: on the concrete lower-case input `abc123` discovery
coincides with its uppercase form, and a concrete generator run yields
the all-uppercase code `ABCDEF`. -/
theorem joinCode_lookup_caseInsensitive_witness :
    searchProjectByCode emptyDB ⟨"u1", "tA", "a@x.com"⟩ [97, 98, 99, 49, 50, 51] =
      searchProjectByCode emptyDB ⟨"u1", "tA", "a@x.com"⟩
        (upperCode [97, 98, 99, 49, 50, 51]) ∧
    (generateProjectCode emptyDB (fun i => i) 1 0 =
        some [65, 66, 67, 68, 69, 70] ∧
      upperCode [65, 66, 67, 68, 69, 70] = [65, 66, 67, 68, 69, 70]) :=
  ⟨joinCode_lookup_caseInsensitive.1 emptyDB ⟨"u1", "tA", "a@x.com"⟩
      [97, 98, 99, 49, 50, 51],
   by decide,
   joinCode_lookup_caseInsensitive.2.2 emptyDB (fun i => i) 1 0
      [65, 66, 67, 68, 69, 70] (by decide)⟩

/- ---------------------------------------------------------------- -/
/- C2                                                               -/
/- ---------------------------------------------------------------- -/

/-- A project of tenant tA created by u2, with join code ABC123. -/
def projC2 : Project := ⟨"p1", "tA", "Proj One", [65, 66, 67, 49, 50, 51], "u2"⟩

/-- Store for the deletion claims: u2 owns p1, u1 is ADMIN, u3 MEMBER. -/
def dbC2 : DB :=
  { emptyDB with
    projects := [projC2]
    members := [⟨"tA", "p1", "u2", .OWNER⟩, ⟨"tA", "p1", "u1", .ADMIN⟩,
                ⟨"tA", "p1", "u3", .MEMBER⟩] }

/-- Counterexample to C2: a caller whose resolved role is ADMIN (not
Owner) deletes the project successfully — the route gates deletion on
`canAdmin`, which admits both OWNER and ADMIN, so deletion is not
Owner-only. -/
theorem deleteProject_admin_succeeds_cex :
    checkProjectAccess dbC2 "u1" "p1" "tA" = .ok ⟨true, some .ADMIN⟩ ∧
    (deleteProject dbC2 ⟨"u1", "tA", "alice@x.com"⟩ "p1").1
      = .ok "Project deleted successfully" ∧
    (deleteProject dbC2 ⟨"u1", "tA", "alice@x.com"⟩ "p1").2.projects = [] := by
  decide

/-- C2 (amended): project deletion is permitted exactly for resolved
roles Owner and Admin (the route checks `canAdmin`): a caller resolved
to Member, Viewer, or no access fails with Forbidden and the store is
unchanged, while a caller resolved to Owner or Admin succeeds and the
project row is removed. -/
theorem deleteProject_permits_owner_and_admin
    (db : DB) (p : Principal) (projectId : String) (project : Project)
    (r : AccessResult)
    (hfind : db.projects.find? (fun q => q.id == projectId) = some project)
    (htenant : p.tenantId = project.tenantId)
    (hacc : checkProjectAccess db p.userId project.id p.tenantId = .ok r) :
    ((r.hasAccess = false ∨ r.role = some .MEMBER ∨ r.role = some .VIEWER ∨
        r.role = none) →
      deleteProject db p projectId =
        (.error (.forbidden "Only owners and admins can delete projects"), db)) ∧
    (r.hasAccess = true → (r.role = some .OWNER ∨ r.role = some .ADMIN) →
      ((deleteProject db p projectId).1 = .ok "Project deleted successfully" ∧
       (deleteProject db p projectId).2.projects.find?
          (fun q => q.id == projectId) = none)) := by
  have hten : ensureTenantAccess p.tenantId project.tenantId = .ok () := by
    unfold ensureTenantAccess
    simp [htenant]
  constructor
  · intro hcase
    have hgate : (!r.hasAccess || !canAdmin r.role) = true := by
      rcases hcase with h | h | h | h <;> simp [canAdmin, h]
    simp [deleteProject, hfind, hten, hacc, hgate]
  · intro h1 h2
    have hgate : (!r.hasAccess || !canAdmin r.role) = false := by
      rcases h2 with h | h <;> simp [canAdmin, h1, h]
    have hred : deleteProject db p projectId =
        (.ok "Project deleted successfully", cascadeDeleteProject db projectId) := by
      simp [deleteProject, hfind, hten, hacc, hgate]
    rw [hred]
    refine ⟨rfl, ?_⟩
    unfold cascadeDeleteProject
    simp only [List.find?_eq_none, List.mem_filter]
    intro q hq
    have hne := hq.2
    simp only [bne_iff_ne, ne_eq] at hne
    simp [hne]

/-- Witness for C2: in the concrete store, the MEMBER-role caller u3 is
refused with Forbidden and nothing changes. -/
theorem deleteProject_permits_owner_and_admin_witness :
    deleteProject dbC2 ⟨"u3", "tA", "carol@x.com"⟩ "p1"
      = (.error (.forbidden "Only owners and admins can delete projects"), dbC2) :=
  (deleteProject_permits_owner_and_admin dbC2 ⟨"u3", "tA", "carol@x.com"⟩ "p1"
      projC2 ⟨true, some .MEMBER⟩ (by decide) rfl (by decide)).1
    (Or.inr (Or.inl rfl))

/- ---------------------------------------------------------------- -/
/- C1                                                               -/
/- ---------------------------------------------------------------- -/

/-- A project in tenant tB created by u2, join code ABC123. -/
def projC1 : Project := ⟨"p1", "tB", "Proj B", [65, 66, 67, 49, 50, 51], "u2"⟩

/-- Store for the tenant-isolation claims: only tenant tB has data. -/
def dbC1 : DB :=
  { emptyDB with
    projects := [projC1]
    members := [⟨"tB", "p1", "u2", .OWNER⟩] }

/-- The cross-tenant principal: tenant tA. -/
def pC1 : Principal := ⟨"u1", "tA", "alice@x.com"⟩

/-- Counterexample to C1: a principal of tenant tA accessing a project
of tenant tB is refused with `Forbidden` — which is neither
`TenantMismatch` nor `NotFound` — by GET /projects/:id, and the
code-based discovery endpoint even *succeeds* and returns the foreign
project's data to them. -/
theorem crossTenant_access_cex :
    pC1.tenantId ≠ projC1.tenantId ∧
    getProject dbC1 pC1 "p1"
      = .error (.forbidden "You do not have access to this project") ∧
    isTenantMismatchOrNotFound
      (.forbidden "You do not have access to this project") = false ∧
    searchProjectByCode dbC1 pC1 [97, 98, 99, 49, 50, 51]
      = .ok ⟨projC1, false, false⟩ := by
  decide

/-- C1 (amended): for a principal P of tenant A and a project R of
tenant B ≠ A, with no membership row linking P to R and P not R's
creator, the modelled operations never return R's data and never
mutate anything — but the failure kind is `Forbidden`, not only
`TenantMismatch`/`NotFound`, for GET /projects/:id and for join-request
creation, and the deliberate join-code discovery endpoint is an
exception that does return R's public summary to P. -/
theorem crossTenant_never_returns_data
    (db : DB) (p : Principal) (pid : String) (pr : Project) (c : List Nat)
    (hfind : db.projects.find? (fun q => q.id == pid) = some pr)
    (hten : p.tenantId ≠ pr.tenantId)
    (hnomem : ∀ m ∈ db.members, ¬(m.projectId = pr.id ∧ m.userId = p.userId))
    (hnocreator : pr.createdBy ≠ p.userId) :
    (getProject db p pid
      = .error (.forbidden "You do not have access to this project")) ∧
    (pr ∉ listProjects db p) ∧
    (deleteProject db p pid = (.error .tenantMismatch, db)) ∧
    (∀ email role now fid tok eok,
      createInvitation db p pid email role now fid tok eok
        = (.error .tenantMismatch, db)) ∧
    (∀ msg fid nok,
      db.projects.find? (fun q => q.code == upperCode c) = some pr →
      pr.code ≠ [] →
      createJoinRequest db p c msg fid nok =
        (.error (.forbidden "You can only join projects within your organization"), db)) ∧
    (db.projects.find? (fun q => q.code == upperCode c) = some pr →
      ∃ sr : SearchResult, searchProjectByCode db p c = .ok sr ∧ sr.project = pr) := by
  have hanymem : db.members.any
      (fun m => m.projectId == pr.id && m.userId == p.userId) = false := by
    rw [List.any_eq_false]
    intro m hm
    have := hnomem m hm
    simp only [Bool.and_eq_true, beq_iff_eq]
    tauto
  have htenG : ensureTenantAccess p.tenantId pr.tenantId = .error .tenantMismatch := by
    unfold ensureTenantAccess
    simp [hten]
  refine ⟨?_, ?_, ?_, ?_, ?_, ?_⟩
  · have hcr : (pr.createdBy == p.userId) = false := by
      simp [hnocreator]
    simp [getProject, hfind, hcr, hanymem]
  · intro hmem
    unfold listProjects at hmem
    by_cases hemp : (((db.members.filter (fun m => m.userId == p.userId)).map
          (fun m => m.projectId)) ++
        ((db.projects.filter (fun q =>
            q.createdBy == p.userId && q.tenantId == p.tenantId)).map
          (fun q => q.id))).isEmpty = true
    · rw [if_pos hemp] at hmem
      exact absurd hmem (List.not_mem_nil pr)
    · rw [if_neg hemp] at hmem
      have hpred := (List.mem_filter.mp hmem).2
      simp only [Bool.and_eq_true, Bool.or_eq_true, beq_iff_eq] at hpred
      rcases hpred.2 with h | h
      · exact hten h.symm
      · rcases List.any_eq_true.mp h.2 with ⟨m, hm, hp⟩
        simp only [Bool.and_eq_true, beq_iff_eq] at hp
        exact hnomem m hm hp
  · simp [deleteProject, hfind, htenG]
  · intro email role now fid tok eok
    simp [createInvitation, hfind, htenG]
  · intro msg fid nok hcode hne
    have hten' : (pr.tenantId ≠ p.tenantId) = True := by
      simp [Ne.symm hten]
    have hempty : pr.code.isEmpty = false := by
      simpa [List.isEmpty_iff] using hne
    simp [createJoinRequest, hcode, hempty, hten']
  · intro hcode
    refine ⟨⟨pr,
        db.members.any (fun m => m.projectId == pr.id && m.userId == p.userId),
        (db.joinRequests.find? (fun r => r.projectId == pr.id &&
          r.userId == p.userId && r.status == .PENDING)).isSome⟩, ?_, rfl⟩
    simp [searchProjectByCode, hcode]

/-- Witness for C1 (amended): the concrete cross-tenant principal of
`crossTenant_access_cex` is denied by GET /projects/:id and by
DELETE /projects/:id with an unchanged store. -/
theorem crossTenant_never_returns_data_witness :
    getProject dbC1 pC1 "p1"
      = .error (.forbidden "You do not have access to this project") ∧
    deleteProject dbC1 pC1 "p1" = (.error .tenantMismatch, dbC1) := by
  have H := crossTenant_never_returns_data dbC1 pC1 "p1" projC1
    [97, 98, 99, 49, 50, 51] (by decide) (by decide) (by decide) (by decide)
  exact ⟨H.1, H.2.2.1⟩

/- ---------------------------------------------------------------- -/
/- Invitation lifecycle: C5, C8, C4                                 -/
/- ---------------------------------------------------------------- -/

/-- After updating the (unique) invitation with token `tok` to a
non-PENDING status, no pending invitation with that token remains. -/
theorem find?_pending_none_after_update (l : List Invitation) (tok : String)
    (invId : String) (st : InvitationStatus) (hst : st ≠ .PENDING)
    (huniq : ∀ i ∈ l, i.token = tok → i.id = invId) :
    (l.map (fun i => if i.id == invId then { i with status := st } else i)).find?
      (fun i => i.token == tok && i.status == .PENDING) = none := by
  rw [List.find?_eq_none]
  intro x hx
  simp only [List.mem_map] at hx
  obtain ⟨i, hi, rfl⟩ := hx
  by_cases hid : (i.id == invId) = true
  · rw [if_pos hid]
    simp [hst]
  · rw [if_neg hid]
    intro hcon
    simp only [Bool.and_eq_true, beq_iff_eq] at hcon
    exact hid (by simp [huniq i hi hcon.1])

/-- A pending invitation addressed to bob@x.com in tenant tA, expiring
at time 100. -/
def invC5 : Invitation :=
  ⟨"i1", "tA", "p1", "bob@x.com", .MEMBER, .PENDING, "TOK", "u2", 100⟩

/-- Store in which u1's account email differs from the invitation's
target email only in letter case. -/
def dbC5 : DB :=
  { emptyDB with
    users := [⟨"u1", "tA", "Bob@x.com"⟩]
    invitations := [invC5] }

/-- Counterexample to C5: the accepting principal's email Bob@x.com and
the invitation's target bob@x.com are equal up to letter case, yet the
acceptance is rejected with Forbidden (the route compares with strict
`!==`), nothing is written, and the error message is a fixed string that
does not identify the required email. -/
theorem acceptInvitation_caseSensitive_cex :
    lowerAscii "Bob@x.com" = lowerAscii "bob@x.com" ∧
    "Bob@x.com" ≠ "bob@x.com" ∧
    acceptInvitation dbC5 ⟨"u1", "tA", "Bob@x.com"⟩ "TOK" 50
      = (.error (.forbidden "Invitation email does not match your account"), dbC5) := by
  decide

/-- C5 (amended): acceptance proceeds only when the principal's account
email is exactly (case-sensitively) equal to the invitation's target
email.  Any difference — including a difference only of letter case —
fails with Forbidden and the fixed message 'Invitation email does not
match your account' (which does not contain the required email), with
the store unchanged and no membership created; when the emails are
exactly equal the email gate never produces a Forbidden outcome. -/
theorem acceptInvitation_email_exact_match
    (db : DB) (p : Principal) (tok : String) (now : Nat)
    (inv : Invitation) (user : UserRow)
    (hfind : db.invitations.find?
      (fun i => i.token == tok && i.status == .PENDING) = some inv)
    (hexp : ¬ now > inv.expiresAt)
    (huser : db.users.find? (fun u => u.id == p.userId) = some user) :
    (user.email ≠ inv.email →
      acceptInvitation db p tok now
        = (.error (.forbidden "Invitation email does not match your account"), db)) ∧
    (user.email = inv.email →
      ∀ m, (acceptInvitation db p tok now).1 ≠ .error (.forbidden m)) := by
  constructor
  · intro hne
    simp [acceptInvitation, hfind, hexp, huser, hne]
  · intro heq m
    simp only [acceptInvitation, hfind, huser]
    rw [if_neg hexp, if_neg (fun hcon => hcon heq)]
    cases hET : ensureTenantAccess p.tenantId inv.tenantId with
    | error e =>
      have he : e = .tenantMismatch := by
        unfold ensureTenantAccess at hET
        by_cases hc : p.tenantId ≠ inv.tenantId
        · rw [if_pos hc] at hET; cases hET; rfl
        · rw [if_neg hc] at hET; cases hET
      subst he
      simp
    | ok u =>
      by_cases hmem : (db.members.find? (fun mm =>
          mm.projectId == inv.projectId && mm.userId == user.id)).isSome = true
      · simp [hmem]
      · simp [hmem]

/-- Witness for C5 (amended): the concrete case-mismatched acceptance of
`acceptInvitation_caseSensitive_cex`, obtained from the theorem. -/
theorem acceptInvitation_email_exact_match_witness :
    acceptInvitation dbC5 ⟨"u1", "tA", "Bob@x.com"⟩ "TOK" 50
      = (.error (.forbidden "Invitation email does not match your account"), dbC5) :=
  (acceptInvitation_email_exact_match dbC5 ⟨"u1", "tA", "Bob@x.com"⟩ "TOK" 50
      invC5 ⟨"u1", "tA", "Bob@x.com"⟩ (by decide) (by decide) (by decide)).1
    (by decide)

/-- A pending invitation that expires at time 100, for the expiry claims. -/
def invC8 : Invitation :=
  ⟨"i8", "tA", "p1", "bob@x.com", .VIEWER, .PENDING, "TOK8", "u2", 100⟩

/-- Store for the expiry claims. -/
def dbC8 : DB :=
  { emptyDB with
    users := [⟨"u1", "tA", "bob@x.com"⟩]
    invitations := [invC8] }

/-- C8: lazy expiry.  On a still-pending invitation whose `expiresAt`
has passed, both lookup-by-token and accept transition the invitation to
EXPIRED as a side effect and answer Gone — never the invitation body,
and never a membership (accept leaves the member table untouched).  A
successful lookup only ever returns a pending, unexpired body, and once
the transition has happened, later invocations find no pending
invitation for the token (NotFound), so an expired invitation is never
again observable as pending. -/
theorem invitation_lazy_expiry :
    (∀ (db : DB) (tok : String) (now : Nat) (inv : Invitation),
      db.invitations.find? (fun i => i.token == tok && i.status == .PENDING)
        = some inv →
      now > inv.expiresAt →
      getInvitationByToken db tok now
        = (.error (.gone "Invitation has expired"),
           setInvitationStatus db inv.id .EXPIRED)) ∧
    (∀ (db : DB) (p : Principal) (tok : String) (now : Nat) (inv : Invitation),
      db.invitations.find? (fun i => i.token == tok && i.status == .PENDING)
        = some inv →
      now > inv.expiresAt →
      acceptInvitation db p tok now
        = (.error (.gone "Invitation has expired"),
           setInvitationStatus db inv.id .EXPIRED) ∧
      (setInvitationStatus db inv.id .EXPIRED).members = db.members) ∧
    (∀ (db : DB) (tok : String) (now : Nat) (r : Invitation) (db' : DB),
      getInvitationByToken db tok now = (.ok r, db') →
      r.status = .PENDING ∧ ¬ now > r.expiresAt ∧ db' = db) ∧
    (∀ (db : DB) (tok : String) (now' : Nat) (inv : Invitation),
      (∀ i ∈ db.invitations, i.token = tok → i.id = inv.id) →
      getInvitationByToken (setInvitationStatus db inv.id .EXPIRED) tok now'
        = (.error (.notFound "Invitation not found"),
           setInvitationStatus db inv.id .EXPIRED)) := by
  refine ⟨?_, ?_, ?_, ?_⟩
  · intro db tok now inv hfind hlate
    simp [getInvitationByToken, hfind, hlate]
  · intro db p tok now inv hfind hlate
    refine ⟨?_, rfl⟩
    simp [acceptInvitation, hfind, hlate]
  · intro db tok now r db' h
    unfold getInvitationByToken at h
    cases hf : db.invitations.find?
        (fun i => i.token == tok && i.status == .PENDING) with
    | none => rw [hf] at h; cases h
    | some inv =>
      rw [hf] at h
      dsimp only at h
      by_cases hlate : now > inv.expiresAt
      · rw [if_pos hlate] at h; cases h
      · rw [if_neg hlate] at h
        have hok : Except.ok (ε := Err) inv = Except.ok r := congrArg Prod.fst h
        have hdb : db = db' := congrArg Prod.snd h
        have hir : inv = r := by cases hok; rfl
        subst hir
        subst hdb
        have hp0 := List.find?_some hf
        have hp : (inv.token == tok && inv.status == .PENDING) = true := hp0
        simp only [Bool.and_eq_true, beq_iff_eq] at hp
        exact ⟨hp.2, hlate, rfl⟩
  · intro db tok now' inv huniq
    have hnone : (setInvitationStatus db inv.id .EXPIRED).invitations.find?
        (fun i => i.token == tok && i.status == .PENDING) = none := by
      unfold setInvitationStatus
      exact find?_pending_none_after_update db.invitations tok inv.id .EXPIRED
        (by intro h; cases h) huniq
    simp [getInvitationByToken, hnone]

/-- Witness for C8: at time 200 the lookup of the still-pending
invitation (which expired at 100) answers Gone and marks it EXPIRED. -/
theorem invitation_lazy_expiry_witness :
    getInvitationByToken dbC8 "TOK8" 200
      = (.error (.gone "Invitation has expired"),
         setInvitationStatus dbC8 "i8" .EXPIRED) :=
  invitation_lazy_expiry.1 dbC8 "TOK8" 200 invC8 (by decide) (by decide)

/-- A pending invitation with token TOK4 addressed to bob@x.com. -/
def invC4 : Invitation :=
  ⟨"i4", "tA", "p1", "bob@x.com", .MEMBER, .PENDING, "TOK4", "u2", 100⟩

/-- Store for the double-acceptance claims: the invited user exists, is
not yet a member. -/
def dbC4 : DB :=
  { emptyDB with
    users := [⟨"u1", "tA", "bob@x.com"⟩]
    invitations := [invC4] }

/-- The accepting principal for the double-acceptance claims. -/
def pC4 : Principal := ⟨"u1", "tA", "bob@x.com"⟩

/-- Counterexample to C4: accepting the same token twice — the first
acceptance succeeds, and the second returns NotFound ('Invitation not
found', 404), not Conflict: the invitation is no longer pending, so the
pending-filtered lookup misses it. -/
theorem acceptInvitation_second_notFound_cex :
    (acceptInvitation dbC4 pC4 "TOK4" 10).1 = .ok "Invitation accepted successfully" ∧
    (acceptInvitation (acceptInvitation dbC4 pC4 "TOK4" 10).2 pC4 "TOK4" 10).1
      = .error (.notFound "Invitation not found") := by
  decide

/-- C4 (amended): accepting the same invitation token twice never
creates two ProjectMember rows for the `(project, user)` pair — after
the two calls exactly one row exists — but the second acceptance fails
with NotFound (the invitation is no longer pending), not with Conflict;
Conflict is produced only when the acceptor already holds a membership
while the invitation is still pending. -/
theorem acceptInvitation_no_duplicate_membership
    (db : DB) (p : Principal) (tok : String) (now now' : Nat)
    (inv : Invitation) (user : UserRow)
    (hfind : db.invitations.find?
      (fun i => i.token == tok && i.status == .PENDING) = some inv)
    (hexp : ¬ now > inv.expiresAt)
    (huser : db.users.find? (fun u => u.id == p.userId) = some user)
    (hemail : user.email = inv.email)
    (htenant : p.tenantId = inv.tenantId)
    (hnomem : db.members.find?
      (fun m => m.projectId == inv.projectId && m.userId == user.id) = none)
    (huniq : ∀ i ∈ db.invitations, i.token = tok → i.id = inv.id) :
    (acceptInvitation db p tok now).1 = .ok "Invitation accepted successfully" ∧
    ((acceptInvitation db p tok now).2.members.filter
        (fun m => m.projectId == inv.projectId && m.userId == user.id)).length
      = 1 ∧
    acceptInvitation (acceptInvitation db p tok now).2 p tok now'
      = (.error (.notFound "Invitation not found"),
         (acceptInvitation db p tok now).2) := by
  have hET : ensureTenantAccess p.tenantId inv.tenantId = .ok () := by
    unfold ensureTenantAccess
    simp [htenant]
  have hfst : (acceptInvitation db p tok now).1
      = .ok "Invitation accepted successfully" := by
    simp [acceptInvitation, hfind, hexp, huser, hemail, hET, hnomem]
  have hmembers : (acceptInvitation db p tok now).2.members
      = db.members ++ [⟨inv.tenantId, inv.projectId, user.id, inv.role⟩] := by
    simp [acceptInvitation, hfind, hexp, huser, hemail, hET, hnomem,
      setInvitationStatus]
  have hinvs : (acceptInvitation db p tok now).2.invitations
      = db.invitations.map
          (fun i => if i.id == inv.id then { i with status := .ACCEPTED } else i) := by
    simp [acceptInvitation, hfind, hexp, huser, hemail, hET, hnomem,
      setInvitationStatus]
  refine ⟨hfst, ?_, ?_⟩
  · rw [hmembers, List.filter_append]
    have hold : db.members.filter
        (fun m => m.projectId == inv.projectId && m.userId == user.id) = [] :=
      List.filter_eq_nil_iff.mpr (by
        intro m hm
        exact (List.find?_eq_none.mp hnomem) m hm)
    rw [hold]
    simp
  · have hnone : (acceptInvitation db p tok now).2.invitations.find?
        (fun i => i.token == tok && i.status == .PENDING) = none := by
      rw [hinvs]
      exact find?_pending_none_after_update db.invitations tok inv.id .ACCEPTED
        (by intro h; cases h) huniq
    generalize hD : (acceptInvitation db p tok now).2 = D at hnone ⊢
    simp [acceptInvitation, hnone]

/-- Witness for C4 (amended): the concrete double acceptance — one
membership row exists afterwards, and the second call answers NotFound
leaving the store unchanged. -/
theorem acceptInvitation_no_duplicate_membership_witness :
    ((acceptInvitation dbC4 pC4 "TOK4" 10).2.members.filter
        (fun m => m.projectId == invC4.projectId && m.userId == "u1")).length
      = 1 ∧
    acceptInvitation (acceptInvitation dbC4 pC4 "TOK4" 10).2 pC4 "TOK4" 20
      = (.error (.notFound "Invitation not found"),
         (acceptInvitation dbC4 pC4 "TOK4" 10).2) := by
  have H := acceptInvitation_no_duplicate_membership dbC4 pC4 "TOK4" 10 20
    invC4 ⟨"u1", "tA", "bob@x.com"⟩ (by decide) (by decide) (by decide)
    (by decide) (by decide) (by decide) (by decide)
  exact ⟨H.2.1, H.2.2⟩

/- ---------------------------------------------------------------- -/
/- Join-request lifecycle: C6, C7, C9                               -/
/- ---------------------------------------------------------------- -/

/-- A pending join request by u3 for project p1. -/
def jrC6 : JoinRequest := ⟨"r6", "tA", "p1", "u3", none, .PENDING⟩

/-- Store where the requester u3 already holds a membership row. -/
def dbC6 : DB :=
  { emptyDB with
    members := [⟨"tA", "p1", "u2", .OWNER⟩, ⟨"tA", "p1", "u3", .MEMBER⟩]
    joinRequests := [jrC6] }

/-- Counterexample to C6: accepting a join request whose requester is
already a member answers 400 BadRequest ('User is already a member'),
not Conflict, and leaves the request PENDING — it is not transitioned
to accepted. -/
theorem acceptJoinRequest_alreadyMember_cex :
    acceptJoinRequest dbC6 ⟨"u2", "tA", "own@x.com"⟩ "r6" true
      = (.error (.badRequest "User is already a member"), dbC6) ∧
    ((dbC6.joinRequests.find? (fun r => r.id == "r6")).map (fun r => r.status))
      = some .PENDING := by
  decide

/-- C6 (amended): when the requester of a join request already holds a
ProjectMember row for the project, an authorized accept fails with
BadRequest ('User is already a member', 400) and the store is entirely
unchanged: the request is not transitioned to accepted and no duplicate
membership is created. -/
theorem acceptJoinRequest_alreadyMember_badRequest
    (db : DB) (p : Principal) (requestId : String) (jr : JoinRequest)
    (mrow : ProjectMember) (nok : Bool)
    (hfind : db.joinRequests.find? (fun r => r.id == requestId) = some jr)
    (hadmin : db.members.find? (fun m => m.projectId == jr.projectId &&
        m.userId == p.userId && (m.role == .OWNER || m.role == .ADMIN))
      = some mrow)
    (hmem : db.members.any (fun m => m.projectId == jr.projectId &&
        m.userId == jr.userId) = true) :
    acceptJoinRequest db p requestId nok
      = (.error (.badRequest "User is already a member"), db) := by
  simp [acceptJoinRequest, hfind, hadmin, hmem]

/-- Witness for C6 (amended): the concrete already-member acceptance,
with a failing notification sink as well — still a pure BadRequest. -/
theorem acceptJoinRequest_alreadyMember_badRequest_witness :
    acceptJoinRequest dbC6 ⟨"u2", "tA", "own@x.com"⟩ "r6" false
      = (.error (.badRequest "User is already a member"), dbC6) :=
  acceptJoinRequest_alreadyMember_badRequest dbC6 ⟨"u2", "tA", "own@x.com"⟩
    "r6" jrC6 ⟨"tA", "p1", "u2", .OWNER⟩ false (by decide) (by decide) (by decide)

/-- A join request that has already been declined. -/
def jrC7 : JoinRequest := ⟨"r7", "tA", "p1", "u3", none, .DECLINED⟩

/-- Store with the declined request; the requester is not a member. -/
def dbC7 : DB :=
  { emptyDB with
    members := [⟨"tA", "p1", "u2", .OWNER⟩]
    joinRequests := [jrC7] }

/-- Counterexample to C7: an authorized accept of an already-DECLINED
join request succeeds and flips its status to ACCEPTED — declined is not
a terminal state. -/
theorem declined_joinRequest_accepted_cex :
    ((dbC7.joinRequests.find? (fun r => r.id == "r7")).map (fun r => r.status))
      = some .DECLINED ∧
    (acceptJoinRequest dbC7 ⟨"u2", "tA", "own@x.com"⟩ "r7" true).1
      = .ok "Join request accepted" ∧
    (((acceptJoinRequest dbC7 ⟨"u2", "tA", "own@x.com"⟩ "r7" true).2.joinRequests.find?
        (fun r => r.id == "r7")).map (fun r => r.status)) = some .ACCEPTED := by
  decide

/-- C7 (amended): neither accept nor decline checks the request's
current status.  For any request whose requester is not currently a
member, an authorized accept transitions it to ACCEPTED — even from
DECLINED — and an authorized decline transitions any request to
DECLINED — even from ACCEPTED.  Only the requester's existing
membership blocks a (re-)accept, so accepted behaves as terminal for
accept merely because acceptance creates that membership. -/
theorem joinRequest_resolved_states_not_terminal
    (db : DB) (p : Principal) (requestId : String) (jr : JoinRequest)
    (mrow : ProjectMember)
    (hfind : db.joinRequests.find? (fun r => r.id == requestId) = some jr)
    (hadmin : db.members.find? (fun m => m.projectId == jr.projectId &&
        m.userId == p.userId && (m.role == .OWNER || m.role == .ADMIN))
      = some mrow) :
    (db.members.any (fun m => m.projectId == jr.projectId &&
        m.userId == jr.userId) = false →
      (acceptJoinRequest db p requestId true).1 = .ok "Join request accepted" ∧
      (acceptJoinRequest db p requestId true).2.joinRequests.find?
          (fun r => r.id == requestId) = some { jr with status := .ACCEPTED }) ∧
    ((declineJoinRequest db p requestId true).1 = .ok "Join request declined" ∧
      (declineJoinRequest db p requestId true).2.joinRequests.find?
          (fun r => r.id == requestId) = some { jr with status := .DECLINED }) := by
  constructor
  · intro hnm
    constructor
    · simp [acceptJoinRequest, hfind, hadmin, hnm]
    · have hjrs : (acceptJoinRequest db p requestId true).2.joinRequests
          = (setJoinRequestStatus db requestId .ACCEPTED).joinRequests := by
        simp [acceptJoinRequest, hfind, hadmin, hnm]
      rw [hjrs]
      exact find?_setJoinRequestStatus db requestId .ACCEPTED jr hfind
  · constructor
    · simp [declineJoinRequest, hfind, hadmin]
    · have hjrs : (declineJoinRequest db p requestId true).2.joinRequests
          = (setJoinRequestStatus db requestId .DECLINED).joinRequests := by
        simp [declineJoinRequest, hfind, hadmin]
      rw [hjrs]
      exact find?_setJoinRequestStatus db requestId .DECLINED jr hfind

/-- Witness for C7 (amended): the concrete declined request of
`declined_joinRequest_accepted_cex` is accepted and ends ACCEPTED. -/
theorem joinRequest_resolved_states_not_terminal_witness :
    (acceptJoinRequest dbC7 ⟨"u2", "tA", "own@x.com"⟩ "r7" true).1
      = .ok "Join request accepted" ∧
    (acceptJoinRequest dbC7 ⟨"u2", "tA", "own@x.com"⟩ "r7" true).2.joinRequests.find?
        (fun r => r.id == "r7")
      = some ⟨"r7", "tA", "p1", "u3", none, .ACCEPTED⟩ :=
  (joinRequest_resolved_states_not_terminal dbC7 ⟨"u2", "tA", "own@x.com"⟩
      "r7" jrC7 ⟨"tA", "p1", "u2", .OWNER⟩ (by decide) (by decide)).1 (by decide)

/-- A project for the side-effect claims (code PQR123). -/
def projC9 : Project := ⟨"p9", "tA", "Proj 9", [80, 81, 82, 49, 50, 51], "u2"⟩

/-- Store for the side-effect claims: u2 owns p9, u3 has a pending join
request; u3 holds no membership row. -/
def dbC9 : DB :=
  { emptyDB with
    projects := [projC9]
    members := [⟨"tA", "p9", "u2", .OWNER⟩]
    joinRequests := [⟨"r9", "tA", "p9", "u3", none, .PENDING⟩] }

/-- Counterexample to C9: when the notification insert fails during an
authorized accept of a join request, the request *fails* with a 500
(server error) — the failure is propagated, not caught at the call
site — even though the primary transition has already been persisted
(status ACCEPTED, membership row created). -/
theorem joinRequestAccept_notifFailure_cex :
    (acceptJoinRequest dbC9 ⟨"u2", "tA", "own@x.com"⟩ "r9" false).1
      = .error .serverError ∧
    (((acceptJoinRequest dbC9 ⟨"u2", "tA", "own@x.com"⟩ "r9" false).2.joinRequests.find?
        (fun r => r.id == "r9")).map (fun r => r.status)) = some .ACCEPTED ∧
    (acceptJoinRequest dbC9 ⟨"u2", "tA", "own@x.com"⟩ "r9" false).2.members.length
      = dbC9.members.length + 1 := by
  decide

/-- C9 (amended): side-effect failure handling differs by operation.
Invitation creation and join-request creation catch the failure at the
call site and still report success with the primary row created (the
invitation path also has the mailer itself swallow errors); but
join-request accept and join-request decline have no try/catch around
their notification insert, so its failure propagates as a 500 request
failure — after the status transition (and, for accept, the membership
row) have already been applied. -/
theorem sideEffect_failure_handling :
    (∀ (db : DB) (p : Principal) (projectId email : String)
        (role : Option ProjectRole) (now : Nat) (fid tok : String)
        (project : Project) (r : AccessResult),
      db.projects.find? (fun q => q.id == projectId) = some project →
      p.tenantId = project.tenantId →
      checkProjectAccess db p.userId project.id p.tenantId = .ok r →
      r.hasAccess = true → canAdmin r.role = true →
      db.users.find? (fun u => u.email == email && u.tenantId == p.tenantId)
        = none →
      db.invitations.find? (fun i => i.projectId == projectId &&
        i.email == email && i.status == .PENDING) = none →
      createInvitation db p projectId email role now fid tok false
        = (.ok ⟨fid, p.tenantId, projectId, email, role.getD .MEMBER, .PENDING,
              tok, p.userId, now + 7 * 86400⟩,
           { db with invitations := db.invitations ++
              [⟨fid, p.tenantId, projectId, email, role.getD .MEMBER, .PENDING,
                tok, p.userId, now + 7 * 86400⟩] })) ∧
    (∀ (db : DB) (p : Principal) (c : List Nat) (msg : Option String)
        (fid : String) (project : Project),
      db.projects.find? (fun q => q.code == upperCode c) = some project →
      project.code ≠ [] →
      project.tenantId = p.tenantId →
      db.members.any (fun m => m.projectId == project.id && m.userId == p.userId)
        = false →
      db.joinRequests.find? (fun r => r.projectId == project.id &&
        r.userId == p.userId && r.status == .PENDING) = none →
      createJoinRequest db p c msg fid false
        = (.ok ⟨fid, p.tenantId, project.id, p.userId, msg, .PENDING⟩,
           { db with joinRequests := db.joinRequests ++
              [⟨fid, p.tenantId, project.id, p.userId, msg, .PENDING⟩] })) ∧
    (∀ (db : DB) (p : Principal) (requestId : String) (jr : JoinRequest)
        (mrow : ProjectMember),
      db.joinRequests.find? (fun r => r.id == requestId) = some jr →
      db.members.find? (fun m => m.projectId == jr.projectId &&
        m.userId == p.userId && (m.role == .OWNER || m.role == .ADMIN))
        = some mrow →
      db.members.any (fun m => m.projectId == jr.projectId &&
        m.userId == jr.userId) = false →
      ((acceptJoinRequest db p requestId false).1 = .error .serverError ∧
       (acceptJoinRequest db p requestId false).2.joinRequests.find?
          (fun r => r.id == requestId) = some { jr with status := .ACCEPTED } ∧
       (acceptJoinRequest db p requestId false).2.members
          = db.members ++ [⟨jr.tenantId, jr.projectId, jr.userId, .MEMBER⟩])) ∧
    (∀ (db : DB) (p : Principal) (requestId : String) (jr : JoinRequest)
        (mrow : ProjectMember),
      db.joinRequests.find? (fun r => r.id == requestId) = some jr →
      db.members.find? (fun m => m.projectId == jr.projectId &&
        m.userId == p.userId && (m.role == .OWNER || m.role == .ADMIN))
        = some mrow →
      ((declineJoinRequest db p requestId false).1 = .error .serverError ∧
       (declineJoinRequest db p requestId false).2.joinRequests.find?
          (fun r => r.id == requestId) = some { jr with status := .DECLINED })) := by
  refine ⟨?_, ?_, ?_, ?_⟩
  · intro db p projectId email role now fid tok project r
      hfindP htenant hacc hAccess hAdmin husers hpend
    have hET : ensureTenantAccess p.tenantId project.tenantId = .ok () := by
      unfold ensureTenantAccess
      simp [htenant]
    have hgate : (!r.hasAccess || !canAdmin r.role) = false := by
      simp [hAccess, hAdmin]
    simp [createInvitation, hfindP, hET, hacc, hgate, husers, hpend]
  · intro db p c msg fid project hcode hne htenant hmem hpend
    have hempty : project.code.isEmpty = false := by
      simpa [List.isEmpty_iff] using hne
    have hten' : (project.tenantId ≠ p.tenantId) = False := by
      simp [htenant]
    simp [createJoinRequest, hcode, hempty, hten', hmem, hpend]
  · intro db p requestId jr mrow hfind hadmin hnm
    refine ⟨?_, ?_, ?_⟩
    · simp [acceptJoinRequest, hfind, hadmin, hnm]
    · have hjrs : (acceptJoinRequest db p requestId false).2.joinRequests
          = (setJoinRequestStatus db requestId .ACCEPTED).joinRequests := by
        simp [acceptJoinRequest, hfind, hadmin, hnm]
      rw [hjrs]
      exact find?_setJoinRequestStatus db requestId .ACCEPTED jr hfind
    · simp [acceptJoinRequest, hfind, hadmin, hnm, setJoinRequestStatus]
  · intro db p requestId jr mrow hfind hadmin
    refine ⟨?_, ?_⟩
    · simp [declineJoinRequest, hfind, hadmin]
    · have hjrs : (declineJoinRequest db p requestId false).2.joinRequests
          = (setJoinRequestStatus db requestId .DECLINED).joinRequests := by
        simp [declineJoinRequest, hfind, hadmin]
      rw [hjrs]
      exact find?_setJoinRequestStatus db requestId .DECLINED jr hfind

/-- Witness for C9 (amended): concretely, an invitation creation still
succeeds when the mail send fails, and an authorized join-request accept
with a failing notification sink reports a server error although the
request has been transitioned. -/
theorem sideEffect_failure_handling_witness :
    (createInvitation dbC9 ⟨"u2", "tA", "own@x.com"⟩ "p9" "new@x.com" none 0
        "i9" "T9" false).1
      = .ok ⟨"i9", "tA", "p9", "new@x.com", .MEMBER, .PENDING, "T9", "u2",
          7 * 86400⟩ ∧
    (acceptJoinRequest dbC9 ⟨"u2", "tA", "own@x.com"⟩ "r9" false).1
      = .error .serverError := by
  have Ha := sideEffect_failure_handling.1 dbC9 ⟨"u2", "tA", "own@x.com"⟩
    "p9" "new@x.com" none 0 "i9" "T9" projC9 ⟨true, some .OWNER⟩
    (by decide) (by decide) (by decide) (by decide) (by decide) (by decide)
    (by decide)
  have Hc := sideEffect_failure_handling.2.2.1 dbC9 ⟨"u2", "tA", "own@x.com"⟩
    "r9" ⟨"r9", "tA", "p9", "u3", none, .PENDING⟩ ⟨"tA", "p9", "u2", .OWNER⟩
    (by decide) (by decide) (by decide)
  exact ⟨by rw [Ha]; rfl, Hc.1⟩
